import Mathlib

/-!
Verification development for the mail-merge document generator
(`Project_S2.py`, class `MailMergeGenerator`).

The Python code is shallowly embedded: strings are Lean `String`
(manipulated through their `List Char` data), rows parsed by
`csv.DictReader` are association lists from column name to cell value,
and the file system visible to the generator is passed explicitly as a
list of `(path, content)` pairs.  Reading a file is modelled by a
`ReadResult` value describing the outcome of the corresponding `open`:
success with the text read, `FileNotFoundError`, or any other exception
with its message.  Exceptions that the code catches per row in combined
mode are modelled by an oracle `mergeF` giving each row's outcome.
All definitions are structurally recursive (fuel where the Python loop
is not structural) so that concrete runs reduce inside the kernel.
-/

/-- One CSV row as produced by `csv.DictReader`: an association list
from column name to cell value (first binding wins, as in a dict). -/
abbrev Row : Type := List (String × String)

/-- Membership test used for Python's `key in dict`. -/
def hasKey : Row → String → Bool
  | [], _ => false
  | (k, _) :: rest, key => if k = key then true else hasKey rest key

/-- Lookup used for Python's `dict.get`. -/
def lookupRow : Row → String → Option String
  | [], _ => none
  | (k, v) :: rest, key => if k = key then some v else lookupRow rest key

/-- Boolean membership of a string in a list of strings (Python `in`). -/
def memStr : String → List String → Bool
  | _, [] => false
  | x, y :: ys => if x = y then true else memStr x ys

/-- Python `', '.join(xs)`. -/
def joinComma : List String → String
  | [] => ""
  | [x] => x
  | x :: y :: ys => x ++ ", " ++ joinComma (y :: ys)

/-- Python `'\n'.join(xs)`. -/
def joinNL : List String → String
  | [] => ""
  | [x] => x
  | x :: y :: ys => x ++ "\n" ++ joinNL (y :: ys)

/-- Boolean test that `p` is a leading segment of `t`. -/
def isPre : List Char → List Char → Bool
  | [], _ => true
  | _ :: _, [] => false
  | a :: as, b :: bs => if a = b then isPre as bs else false

/-- Decimal digits of `n`, most significant first; `fuel` bounds the
recursion depth (any `fuel > n` is enough). -/
def natCharsAux : Nat → Nat → List Char
  | 0, _ => []
  | fuel + 1, n =>
    if n < 10 then [Nat.digitChar n]
    else natCharsAux fuel (n / 10) ++ [Nat.digitChar (n % 10)]

/-- Decimal digit list of `n` (the embedding of Python's `str(n)` /
f-string formatting of a nonnegative integer). -/
def natChars (n : Nat) : List Char := natCharsAux (n + 1) n

/-- Decimal numeral of `n` as a string. -/
def natStr (n : Nat) : String := String.mk (natChars n)

/-- Numeric value of one decimal digit character. -/
def digitVal (c : Char) : Nat := c.toNat - 48

/-- Value of a decimal digit list, most significant first. -/
def digitsVal (l : List Char) : Nat := l.foldl (fun a c => a * 10 + digitVal c) 0

/-- Python `text.replace(pat, rep)` for the empty pattern: `rep` is
inserted before every character and at the end. -/
def replEmpty (rep : List Char) : List Char → List Char
  | [] => rep
  | c :: cs => rep ++ c :: replEmpty rep cs

/-- Scanning pass of Python `str.replace` for a nonempty pattern:
leftmost occurrences, non-overlapping, scanned left to right.  `fuel`
is at least the length of the text. -/
def replaceAllAux (pat rep : List Char) : Nat → List Char → List Char
  | 0, text => text
  | _ + 1, [] => []
  | fuel + 1, c :: cs =>
    if isPre pat (c :: cs) then rep ++ replaceAllAux pat rep fuel ((c :: cs).drop pat.length)
    else c :: replaceAllAux pat rep fuel cs

/-- Embedding of Python `text.replace(pat, rep)`. -/
def replaceAll (text pat rep : List Char) : List Char :=
  if pat = [] then replEmpty rep text else replaceAllAux pat rep text.length text

/-- Boolean test that `pat` occurs somewhere in `text`. -/
def containsSub : List Char → List Char → Bool
  | [], pat => isPre pat []
  | c :: cs, pat => if isPre pat (c :: cs) then true else containsSub cs pat

/-- Lazy body match of the pattern `start(.*?)end` once `start` has been
consumed: find the shortest run of non-newline characters followed by a
literal occurrence of `e`; return the run and the remaining text.  `.`
in Python's `re` does not match a newline (no `re.DOTALL` is used), so
a newline before the end delimiter aborts the attempt. -/
def findInner (e : List Char) : List Char → Option (List Char × List Char)
  | [] => if isPre e [] then some ([], []) else none
  | c :: cs =>
    if isPre e (c :: cs) then some ([], (c :: cs).drop e.length)
    else if c = '\n' then none
    else (findInner e cs).map (fun p => (c :: p.1, p.2))

/-- One attempt of the regex `escape(start)(.*?)escape(end)` at the
current position: both delimiters are literal (`re.escape`). -/
def tryMatch (s e text : List Char) : Option (List Char × List Char) :=
  if isPre s text then findInner e (text.drop s.length) else none

/-- Embedding of `re.findall(escape(start) + '(.*?)' + escape(end), text)`:
scan left to right, collecting non-overlapping matches; on a zero-width
match or a failed attempt advance one character.  `fuel` is at least
`text.length + 1` (the pattern is also tried at the end position). -/
def scanAllAux (s e : List Char) : Nat → List Char → List (List Char)
  | 0, _ => []
  | fuel + 1, text =>
    match tryMatch s e text with
    | some (inner, rem) =>
      if rem.length < text.length then inner :: scanAllAux s e fuel rem
      else
        match text with
        | [] => [inner]
        | _ :: cs => inner :: scanAllAux s e fuel cs
    | none =>
      match text with
      | [] => []
      | _ :: cs => scanAllAux s e fuel cs

/-- All placeholder bodies found in `text`, in match order, duplicates kept. -/
def scanAll (s e text : List Char) : List (List Char) :=
  scanAllAux s e (text.length + 1) text

/-- Order-preserving removal of duplicates keeping first occurrences
(the embedding of `dict.fromkeys`); `seen` accumulates names kept so far. -/
def dedupFirstAux (seen : List String) : List String → List String
  | [] => []
  | x :: xs =>
    if memStr x seen then dedupFirstAux seen xs
    else x :: dedupFirstAux (seen ++ [x]) xs

/-- Duplicates removed preserving first-occurrence order. -/
def dedupFirst (l : List String) : List String := dedupFirstAux [] l

/-- Raw match list of `_extract_placeholders` before deduplication. -/
def rawPlaceholders (s e t : String) : List String :=
  (scanAll s.data e.data t.data).map String.mk

/-- The Placeholder List as a pure function of template text and
delimiters: `list(dict.fromkeys(re.findall(pattern, template)))`. -/
def placeholderList (s e t : String) : List String :=
  dedupFirst (rawPlaceholders s e t)

/-- The state held by a `MailMergeGenerator` instance. -/
structure MailMergeGenerator where
  template_content : String
  csv_data : List Row
  placeholders : List String
  output_dir : String
  current_delimiters : String × String
  errors : List String
deriving DecidableEq

/-- The state built by `__init__`. -/
def initGenerator : MailMergeGenerator :=
  { template_content := ""
    csv_data := []
    placeholders := []
    output_dir := "output"
    current_delimiters := ("\x7b\x7b", "\x7d\x7d")
    errors := [] }

/-- Outcome of opening and reading a file: the text (or parsed rows)
read, a `FileNotFoundError`, or any other exception with its message. -/
inductive ReadResult (α : Type) where
  | ok (val : α)
  | notFound
  | err (msg : String)

/-- Method `_extract_placeholders`: recompute `placeholders` from the
current template text and delimiters. -/
def extractPlaceholders (g : MailMergeGenerator) : MailMergeGenerator :=
  { g with
      placeholders :=
        placeholderList g.current_delimiters.1 g.current_delimiters.2 g.template_content }

/-- Method `set_delimiters`: install the pair as given, then re-extract
placeholders when a template is loaded (nonempty template text). -/
def setDelimiters (g : MailMergeGenerator) (s e : String) : MailMergeGenerator :=
  let g1 := { g with current_delimiters := (s, e) }
  if g1.template_content ≠ "" then extractPlaceholders g1 else g1

/-- Method `load_template`, with the file-read outcome made explicit. -/
def loadTemplate (g : MailMergeGenerator) (template_path : String)
    (res : ReadResult String) : MailMergeGenerator × Bool :=
  match res with
  | .ok content => (extractPlaceholders { g with template_content := content }, true)
  | .notFound =>
    ({ g with errors := g.errors ++ ["Template file not found: " ++ template_path] }, false)
  | .err m =>
    ({ g with errors := g.errors ++ ["Error reading template: " ++ m] }, false)

/-- Method `_validate_csv_headers`: placeholders missing from the first
row's keys, reported comma-joined in one error entry. -/
def validateCsvHeaders (g : MailMergeGenerator) : MailMergeGenerator × Bool :=
  let firstRow := g.csv_data.headD []
  let missing := g.placeholders.filter (fun ph => !hasKey firstRow ph)
  if missing = [] then (g, true)
  else
    ({ g with errors := g.errors ++ ["CSV missing required columns: " ++ joinComma missing] },
      false)

/-- Method `load_csv_data`: the parsed rows replace `csv_data` before
the emptiness check and the header validation run. -/
def loadCsvData (g : MailMergeGenerator) (csv_path : String)
    (res : ReadResult (List Row)) : MailMergeGenerator × Bool :=
  match res with
  | .ok rows =>
    let g1 := { g with csv_data := rows }
    if g1.csv_data = [] then
      ({ g1 with errors := g1.errors ++ ["CSV file contains no data"] }, false)
    else validateCsvHeaders g1
  | .notFound =>
    ({ g with errors := g.errors ++ ["CSV file not found: " ++ csv_path] }, false)
  | .err m =>
    ({ g with errors := g.errors ++ ["Error reading CSV: " ++ m] }, false)

/-- Method `_ready_to_generate`: readiness is decided by the template
string and the row list being nonempty (Python truthiness). -/
def readyToGenerate (g : MailMergeGenerator) : MailMergeGenerator × Bool :=
  if g.template_content = "" then
    ({ g with errors := g.errors ++ ["No template loaded"] }, false)
  else if g.csv_data = [] then
    ({ g with errors := g.errors ++ ["No CSV data loaded"] }, false)
  else (g, true)

/-- Method `_merge_template`: fold over the Placeholder List, replacing
every occurrence of `start + name + end` in the working copy with the
row's value, or with `name + "_NOT_FOUND"` when the key is absent. -/
def mergeTemplate (g : MailMergeGenerator) (data : Row) : String :=
  String.mk
    (g.placeholders.foldl
      (fun content ph =>
        let value := (lookupRow data ph).getD (ph ++ "_NOT_FOUND")
        replaceAll content
          (g.current_delimiters.1.data ++ ph.data ++ g.current_delimiters.2.data)
          value.data)
      g.template_content.data)

/-- Python whitespace for `str.strip()`. -/
def pyIsSpace (c : Char) : Bool :=
  c = ' ' || c = '\t' || c = '\n' || c = '\r' || c = '\x0B' || c = '\x0C'

/-- Embedding of Python `str.strip()`. -/
def pyStrip (l : List Char) : List Char :=
  (((l.dropWhile pyIsSpace).reverse).dropWhile pyIsSpace).reverse

/-- Embedding of `str.replace(' ', '_')`: only the space character is
replaced; other whitespace is untouched. -/
def pyReplaceSpace (l : List Char) : List Char :=
  l.map (fun c => if c = ' ' then '_' else c)

/-- Base filename chosen in individual mode for the row at 0-based
index `i`: the filename field's value stripped and with spaces turned
into underscores when the field is truthy and present, else the
positional fallback with the 1-based index. -/
def baseFilename (filename_field : Option String) (row : Row) (i : Nat) : String :=
  match filename_field with
  | some f =>
    if f ≠ "" ∧ hasKey row f then
      String.mk (pyReplaceSpace (pyStrip ((lookupRow row f).getD "").data))
    else "document_" ++ natStr (i + 1)
  | none => "document_" ++ natStr (i + 1)

/-- `os.path.join` for the two-component paths the generator builds. -/
def joinPath (dir name : String) : String := dir ++ "/" ++ name

/-- The path tried for suffix counter `k` in the collision loop. -/
def candPath (dir base : String) (k : Nat) : String :=
  joinPath dir (base ++ "_" ++ natStr k ++ ".txt")

/-- The `while os.path.exists(output_path)` loop: try suffixes
`_counter`, `_counter+1`, … against the existing names; `fuel` bounds
the search (`names.length + 1` always suffices). -/
def resolveLoop (names : List String) (dir base : String) : Nat → Nat → String
  | counter, 0 => candPath dir base counter
  | counter, fuel + 1 =>
    if memStr (candPath dir base counter) names then resolveLoop names dir base (counter + 1) fuel
    else candPath dir base counter

/-- Collision-avoiding output path: `dir/base.txt` when unused,
otherwise the first unused `dir/base_k.txt` with `k = 1, 2, …`. -/
def resolvePath (names : List String) (dir base : String) : String :=
  let path0 := joinPath dir (base ++ ".txt")
  if memStr path0 names then resolveLoop names dir base 1 (names.length + 1)
  else path0

/-- Names of the files present in the modelled output directory. -/
def fileNames (fs : List (String × String)) : List String := fs.map Prod.fst

/-- Row loop of `_generate_individual_files`: merge, choose a base
name, resolve collisions, write.  Merging and writing a string row
never raise in the model, so every row counts as a success. -/
def genIndivLoop (g : MailMergeGenerator) (filename_field : Option String) :
    List Row → Nat → List (String × String) → Nat → List (String × String) × Nat
  | [], _, fs, succ => (fs, succ)
  | row :: rest, i, fs, succ =>
    let content := mergeTemplate g row
    let base := baseFilename filename_field row i
    let path := resolvePath (fileNames fs) g.output_dir base
    genIndivLoop g filename_field rest (i + 1) (fs ++ [(path, content)]) (succ + 1)

/-- Method `_generate_individual_files`. -/
def generateIndividualFiles (g : MailMergeGenerator) (filename_field : Option String)
    (fs : List (String × String)) : MailMergeGenerator × List (String × String) × Bool :=
  let r := genIndivLoop g filename_field g.csv_data 0 fs 0
  (g, r.1, decide (0 < r.2))

/-- The separator appended after each merged row in combined mode. -/
def sepLine : String := "\n" ++ String.mk (List.replicate 80 '=') ++ "\n"

/-- Row loop of `_generate_combined_output`: `mergeF i row` is the
outcome of `self._merge_template(row)` for the row at 0-based index
`i`, `Except.error m` modelling a raised exception with message `m`.
Returns the accumulated pieces, the success count, and the errors
appended. -/
def combineRows (mergeF : Nat → Row → Except String String) :
    List Row → Nat → List String × Nat × List String
  | [], _ => ([], 0, [])
  | row :: rest, i =>
    match mergeF i row with
    | .ok c =>
      let r := combineRows mergeF rest (i + 1)
      (c :: sepLine :: r.1, r.2.1 + 1, r.2.2)
    | .error m =>
      let r := combineRows mergeF rest (i + 1)
      (r.1, r.2.1, ("Error processing row " ++ natStr (i + 1) ++ ": " ++ m) :: r.2.2)

/-- Method `_generate_combined_output`: `writeRes = none` means the
final write succeeds, `some m` that it raises with message `m`;
`timestamp` is the formatted generation time embedded in the name. -/
def generateCombinedOutput (g : MailMergeGenerator)
    (mergeF : Nat → Row → Except String String) (writeRes : Option String)
    (timestamp : String) (fs : List (String × String)) :
    MailMergeGenerator × List (String × String) × Bool :=
  let output_path := joinPath g.output_dir ("combined_output_" ++ timestamp ++ ".txt")
  let r := combineRows mergeF g.csv_data 0
  let g1 := { g with errors := g.errors ++ r.2.2 }
  if 0 < r.2.1 then
    match writeRes with
    | none => (g1, fs ++ [(output_path, joinNL r.1)], true)
    | some m =>
      ({ g1 with errors := g1.errors ++ ["Error writing combined file: " ++ m] }, fs, false)
  else (g1, fs, false)

/-- Method `generate_output`: check readiness, then dispatch on the
requested format (directory creation is outside the model). -/
def generateOutput (g : MailMergeGenerator) (output_format : String)
    (filename_field : Option String) (mergeF : Nat → Row → Except String String)
    (writeRes : Option String) (timestamp : String) (fs : List (String × String)) :
    MailMergeGenerator × List (String × String) × Bool :=
  let r := readyToGenerate g
  if r.2 then
    if output_format = "combined" then generateCombinedOutput r.1 mergeF writeRes timestamp fs
    else generateIndividualFiles r.1 filename_field fs
  else (r.1, fs, false)

/-- Menu option 3 of `main()`: a blank (or whitespace-only) input is
replaced by the default marker before `set_delimiters` is called. -/
def menuSetDelimiters (g : MailMergeGenerator) (startInput endInput : String) :
    MailMergeGenerator :=
  let s := if String.mk (pyStrip startInput.data) = "" then "\x7b\x7b"
           else String.mk (pyStrip startInput.data)
  let e := if String.mk (pyStrip endInput.data) = "" then "\x7d\x7d"
           else String.mk (pyStrip endInput.data)
  setDelimiters g s e

/-! ## Basic facts about the helper functions -/

theorem memStr_iff {x : String} : ∀ {l : List String}, memStr x l = true ↔ x ∈ l
  | [] => by simp [memStr]
  | y :: ys => by
    by_cases h : x = y <;> simp [memStr, h, memStr_iff (l := ys)]

theorem isPre_append (p r : List Char) : isPre p (p ++ r) = true := by
  induction p with
  | nil => rfl
  | cons a as ih => simp [isPre, ih]

theorem eq_append_of_isPre : ∀ {p t : List Char}, isPre p t = true → t = p ++ t.drop p.length
  | [], _, _ => rfl
  | _ :: _, [], h => by simp [isPre] at h
  | a :: as, b :: bs, h => by
    by_cases hab : a = b
    · subst hab
      have hrec := eq_append_of_isPre (p := as) (t := bs) (by simpa [isPre] using h)
      simpa [List.drop] using congrArg (a :: ·) hrec
    · simp [isPre, hab] at h

theorem data_append (s t : String) : (s ++ t).data = s.data ++ t.data :=
  String.data_append s t

theorem data_eq_nil_iff (s : String) : s.data = [] ↔ s = "" := by
  cases s with
  | mk l => cases l <;> simp [String.ext_iff]

theorem containsSub_append_self (rep b : List Char) : containsSub (rep ++ b) rep = true := by
  have hpre : isPre rep (rep ++ b) = true := isPre_append rep b
  cases h : rep ++ b with
  | nil =>
    rcases List.append_eq_nil.mp h with ⟨h1, _⟩
    subst h1; rfl
  | cons c cs =>
    rw [h] at hpre
    simp [containsSub, hpre]

theorem containsSub_cons_of (c : Char) {cs pat : List Char} (h : containsSub cs pat = true) :
    containsSub (c :: cs) pat = true := by
  by_cases hp : isPre pat (c :: cs) <;> simp [containsSub, hp, h]

/-! ## Deduplication keeping first occurrences -/

theorem mem_dedupFirstAux :
    ∀ (l seen : List String) (x : String),
      x ∈ dedupFirstAux seen l ↔ x ∈ l ∧ ¬ x ∈ seen := by
  intro l
  induction l with
  | nil => simp [dedupFirstAux]
  | cons y ys ih =>
    intro seen x
    by_cases hy : memStr y seen
    · rw [dedupFirstAux, if_pos hy, ih]
      have hymem : y ∈ seen := memStr_iff.mp hy
      constructor
      · rintro ⟨h1, h2⟩
        exact ⟨List.mem_cons_of_mem y h1, h2⟩
      · rintro ⟨h1, h2⟩
        rcases List.mem_cons.mp h1 with h1 | h1
        · subst h1; exact absurd hymem h2
        · exact ⟨h1, h2⟩
    · rw [dedupFirstAux, if_neg hy]
      have hynmem : ¬ y ∈ seen := fun h => hy (memStr_iff.mpr h)
      constructor
      · intro hx
        rcases List.mem_cons.mp hx with h1 | h1
        · subst h1; exact ⟨List.mem_cons_self x ys, hynmem⟩
        · obtain ⟨ha, hb⟩ := (ih (seen ++ [y]) x).mp h1
          refine ⟨List.mem_cons_of_mem y ha, fun hc => hb ?_⟩
          exact List.mem_append.mpr (Or.inl hc)
      · rintro ⟨h1, h2⟩
        by_cases hxy : x = y
        · subst hxy; exact List.mem_cons_self x _
        · rcases List.mem_cons.mp h1 with h1 | h1
          · exact absurd h1 hxy
          · refine List.mem_cons_of_mem y ((ih (seen ++ [y]) x).mpr ⟨h1, fun hc => ?_⟩)
            rcases List.mem_append.mp hc with hc | hc
            · exact h2 hc
            · simp at hc; exact hxy hc

theorem nodup_dedupFirstAux : ∀ (l seen : List String), (dedupFirstAux seen l).Nodup := by
  intro l
  induction l with
  | nil => intro seen; simp [dedupFirstAux]
  | cons y ys ih =>
    intro seen
    by_cases hy : memStr y seen
    · rw [dedupFirstAux, if_pos hy]; exact ih seen
    · rw [dedupFirstAux, if_neg hy]
      refine List.Nodup.cons (fun hmem => ?_) (ih (seen ++ [y]))
      have := (mem_dedupFirstAux ys (seen ++ [y]) y).mp hmem
      exact this.2 (by simp)

theorem sublist_dedupFirstAux : ∀ (l seen : List String), (dedupFirstAux seen l).Sublist l := by
  intro l
  induction l with
  | nil => intro seen; simp [dedupFirstAux]
  | cons y ys ih =>
    intro seen
    by_cases hy : memStr y seen
    · rw [dedupFirstAux, if_pos hy]; exact (ih seen).cons y
    · rw [dedupFirstAux, if_neg hy]; exact (ih (seen ++ [y])).cons₂ y

/-- Claim C7: placeholder extraction deduplicates preserving order: the
result has no duplicate name, contains exactly the names the raw scan
found, is a sublist of the raw match sequence (so keeps its order), and
on the template from the spec yields the first-occurrence list. -/
theorem C7_extraction_dedup :
    (∀ s e t, (placeholderList s e t).Nodup)
    ∧ (∀ s e t x, x ∈ placeholderList s e t ↔ x ∈ rawPlaceholders s e t)
    ∧ (∀ s e t, (placeholderList s e t).Sublist (rawPlaceholders s e t))
    ∧ placeholderList "\x7b\x7b" "\x7d\x7d" "{{a}} and {{a}} and {{b}}" = ["a", "b"] := by
  refine ⟨fun s e t => nodup_dedupFirstAux _ _, fun s e t x => ?_,
    fun s e t => sublist_dedupFirstAux _ _, by decide⟩
  simpa using mem_dedupFirstAux (rawPlaceholders s e t) [] x

/-! ## Extraction and newlines -/

theorem scanAllAux_succ (s e : List Char) (fuel : Nat) (text : List Char) :
    scanAllAux s e (fuel + 1) text =
      match tryMatch s e text with
      | some (inner, rem) =>
        if rem.length < text.length then inner :: scanAllAux s e fuel rem
        else
          match text with
          | [] => [inner]
          | _ :: cs => inner :: scanAllAux s e fuel cs
      | none =>
        match text with
        | [] => []
        | _ :: cs => scanAllAux s e fuel cs := rfl

theorem scanAllAux_none_nil (s e : List Char) (fuel : Nat)
    (h : tryMatch s e [] = none) : scanAllAux s e (fuel + 1) [] = [] := by
  rw [scanAllAux_succ, h]

theorem scanAllAux_none_cons (s e : List Char) (fuel : Nat) (c : Char) (cs : List Char)
    (h : tryMatch s e (c :: cs) = none) :
    scanAllAux s e (fuel + 1) (c :: cs) = scanAllAux s e fuel cs := by
  rw [scanAllAux_succ, h]

theorem scanAllAux_some_lt (s e : List Char) (fuel : Nat) (text inner rem : List Char)
    (h : tryMatch s e text = some (inner, rem)) (hlt : rem.length < text.length) :
    scanAllAux s e (fuel + 1) text = inner :: scanAllAux s e fuel rem := by
  rw [scanAllAux_succ, h]
  exact if_pos hlt

theorem scanAllAux_some_ge_cons (s e : List Char) (fuel : Nat) (c : Char)
    (cs inner rem : List Char) (h : tryMatch s e (c :: cs) = some (inner, rem))
    (hge : ¬ rem.length < (c :: cs).length) :
    scanAllAux s e (fuel + 1) (c :: cs) = inner :: scanAllAux s e fuel cs := by
  rw [scanAllAux_succ, h]
  exact if_neg hge

theorem scanAllAux_some_nil (s e : List Char) (fuel : Nat) (inner rem : List Char)
    (h : tryMatch s e [] = some (inner, rem)) :
    scanAllAux s e (fuel + 1) [] = [inner] := by
  rw [scanAllAux_succ, h]
  exact if_neg (by simp)

theorem findInner_no_newline :
    ∀ (e rest inner rem : List Char),
      findInner e rest = some (inner, rem) → ¬ '\n' ∈ inner := by
  intro e rest
  induction rest with
  | nil =>
    intro inner rem h
    by_cases hp : isPre e []
    · rw [findInner, if_pos hp] at h
      cases h; simp
    · rw [findInner, if_neg hp] at h
      cases h
  | cons c cs ih =>
    intro inner rem h
    by_cases hp : isPre e (c :: cs)
    · rw [findInner, if_pos hp] at h
      cases h; simp
    · by_cases hc : c = '\n'
      · rw [findInner, if_neg hp, if_pos hc] at h
        cases h
      · rw [findInner, if_neg hp, if_neg hc] at h
        cases heq : findInner e cs with
        | none => rw [heq] at h; cases h
        | some p =>
          obtain ⟨i, r⟩ := p
          rw [heq, Option.map_some'] at h
          cases h
          intro hmem
          rcases List.mem_cons.mp hmem with h1 | h1
          · exact hc h1.symm
          · exact ih i r heq h1

theorem tryMatch_some {s e text inner rem : List Char}
    (h : tryMatch s e text = some (inner, rem)) :
    findInner e (text.drop s.length) = some (inner, rem) := by
  by_cases hp : isPre s text
  · rwa [tryMatch, if_pos hp] at h
  · rw [tryMatch, if_neg hp] at h; cases h

theorem scanAllAux_no_newline (s e : List Char) :
    ∀ (fuel : Nat) (text inner : List Char),
      inner ∈ scanAllAux s e fuel text → ¬ '\n' ∈ inner := by
  intro fuel
  induction fuel with
  | zero => intro text inner h; simp [scanAllAux] at h
  | succ fuel ih =>
    intro text inner hmem
    cases htm : tryMatch s e text with
    | none =>
      cases text with
      | nil => rw [scanAllAux_none_nil s e fuel htm] at hmem; simp at hmem
      | cons c cs =>
        rw [scanAllAux_none_cons s e fuel c cs htm] at hmem
        exact ih cs inner hmem
    | some p =>
      obtain ⟨inn, rem⟩ := p
      have hinn : ¬ '\n' ∈ inn := findInner_no_newline e _ inn rem (tryMatch_some htm)
      by_cases hlt : rem.length < text.length
      · rw [scanAllAux_some_lt s e fuel text inn rem htm hlt] at hmem
        rcases List.mem_cons.mp hmem with h1 | h1
        · subst h1; exact hinn
        · exact ih rem inner h1
      · cases text with
        | nil =>
          rw [scanAllAux_some_nil s e fuel inn rem htm] at hmem
          rcases List.mem_cons.mp hmem with h1 | h1
          · subst h1; exact hinn
          · simp at h1
        | cons c cs =>
          rw [scanAllAux_some_ge_cons s e fuel c cs inn rem htm hlt] at hmem
          rcases List.mem_cons.mp hmem with h1 | h1
          · subst h1; exact hinn
          · exact ih cs inner h1

theorem findInner_exact :
    ∀ (name rest : List Char), (∀ c ∈ name, c ≠ '}' ∧ c ≠ '\n') →
      findInner ['}', '}'] (name ++ '}' :: '}' :: rest) = some (name, rest) := by
  intro name
  induction name with
  | nil =>
    intro rest _
    have hp : isPre ['}', '}'] ('}' :: '}' :: rest) = true := by simp [isPre]
    rw [List.nil_append, findInner, if_pos hp]
    rfl
  | cons c cs ih =>
    intro rest h
    have hc := h c (List.mem_cons_self c cs)
    have hp : isPre ['}', '}'] (c :: (cs ++ '}' :: '}' :: rest)) = false := by
      rw [isPre]
      exact if_neg (fun hec => hc.1 hec.symm)
    rw [List.cons_append, findInner, if_neg (by simp [hp]), if_neg hc.2,
      ih rest (fun a ha => h a (List.mem_cons_of_mem c ha))]
    rfl

theorem scanAllAux_nil (s e : List Char) (hs : s ≠ []) :
    ∀ fuel, scanAllAux s e fuel [] = [] := by
  intro fuel
  cases fuel with
  | zero => rfl
  | succ fuel =>
    have htm : tryMatch s e [] = none := by
      cases s with
      | nil => exact absurd rfl hs
      | cons a as => rw [tryMatch, if_neg (by simp [isPre])]
    exact scanAllAux_none_nil s e fuel htm

theorem placeholderList_single (name : String)
    (h : ∀ c ∈ name.data, c ≠ '{' ∧ c ≠ '}' ∧ c ≠ '\n') :
    placeholderList "\x7b\x7b" "\x7d\x7d" ("\x7b\x7b" ++ name ++ "\x7d\x7d") = [name] := by
  have hdata : ("\x7b\x7b" ++ name ++ "\x7d\x7d").data = '{' :: '{' :: (name.data ++ '}' :: '}' :: []) := by
    simp [data_append]
  have hfi : findInner ['}', '}'] (name.data ++ '}' :: '}' :: []) = some (name.data, []) :=
    findInner_exact name.data [] (fun c hc => (h c hc).2)
  have htm : tryMatch ("\x7b\x7b" : String).data ("\x7d\x7d" : String).data
      ('{' :: '{' :: (name.data ++ '}' :: '}' :: [])) = some (name.data, []) := by
    have hp : isPre ("\x7b\x7b" : String).data
        ('{' :: '{' :: (name.data ++ '}' :: '}' :: [])) = true := by
      simp [isPre]
    rw [tryMatch, if_pos hp]
    exact hfi
  have hscan : scanAll ("\x7b\x7b" : String).data ("\x7d\x7d" : String).data
      ("\x7b\x7b" ++ name ++ "\x7d\x7d").data = [name.data] := by
    rw [hdata, scanAll, scanAllAux_some_lt _ _ _ _ _ _ htm (by simp),
      scanAllAux_nil _ _ (by simp)]
  rw [placeholderList, rawPlaceholders, hscan]
  rfl

/-- Claim C2 counterexample: the template whose only delimiter-bounded
substring has a newline inside yields no placeholder at all, so a name
spanning a newline between its delimiters is not extracted. -/
theorem C2_counterexample :
    placeholderList "\x7b\x7b" "\x7d\x7d" "\x7b\x7ba\nb\x7d\x7d" = []
    ∧ ¬ "a\nb" ∈ placeholderList "\x7b\x7b" "\x7d\x7d" "\x7b\x7ba\nb\x7d\x7d" := by
  refine ⟨by decide, ?_⟩
  intro h
  rw [(by decide : placeholderList "\x7b\x7b" "\x7d\x7d" "\x7b\x7ba\nb\x7d\x7d" = [])] at h
  simp at h

/-- Claim C2 (amended): placeholder extraction finds the non-overlapping
shortest-match substrings bounded by start and end whose inner text
contains no newline; a placeholder whose name spans a newline between
its delimiters is not extracted, although the template text around
placeholders may contain newlines. -/
theorem C2_amended :
    (∀ s e t p, p ∈ placeholderList s e t → ¬ '\n' ∈ p.data)
    ∧ (∀ name : String, (∀ c ∈ name.data, c ≠ '{' ∧ c ≠ '}' ∧ c ≠ '\n') →
        placeholderList "\x7b\x7b" "\x7d\x7d" ("\x7b\x7b" ++ name ++ "\x7d\x7d") = [name])
    ∧ placeholderList "\x7b\x7b" "\x7d\x7d" "{{a}} x \x7b\x7bb\nc\x7d\x7d {{d}}" = ["a", "d"] := by
  refine ⟨?_, placeholderList_single, by decide⟩
  intro s e t p hp
  have hraw : p ∈ rawPlaceholders s e t := by
    have := (mem_dedupFirstAux (rawPlaceholders s e t) [] p).mp hp
    exact this.1
  rw [rawPlaceholders, List.mem_map] at hraw
  obtain ⟨inner, hinner, rfl⟩ := hraw
  exact scanAllAux_no_newline s.data e.data _ t.data inner hinner

/-- Witness instantiating the amended C2 theorem on a concrete name. -/
theorem C2_witness :
    (∀ c ∈ ("ab" : String).data, c ≠ '{' ∧ c ≠ '}' ∧ c ≠ '\n')
    ∧ placeholderList "\x7b\x7b" "\x7d\x7d" ("\x7b\x7b" ++ "ab" ++ "\x7d\x7d") = ["ab"] :=
  ⟨by decide, C2_amended.2.1 "ab" (by decide)⟩

/-! ## Filename collision resolution -/

theorem digitVal_digitChar : ∀ n < 10, digitVal (Nat.digitChar n) = n := by decide

theorem digitsVal_natCharsAux :
    ∀ (fuel n : Nat), n < fuel → digitsVal (natCharsAux fuel n) = n := by
  intro fuel
  induction fuel with
  | zero => intro n h; omega
  | succ fuel ih =>
    intro n h
    by_cases h10 : n < 10
    · rw [natCharsAux, if_pos h10]
      have hd := digitVal_digitChar n h10
      simp [digitsVal, hd]
    · have h1 : n / 10 < n := Nat.div_lt_self (by omega) (by omega)
      have hdiv : n / 10 < fuel := by omega
      rw [natCharsAux, if_neg h10]
      rw [digitsVal, List.foldl_append]
      have hih := ih (n / 10) hdiv
      rw [digitsVal] at hih
      rw [hih]
      simp only [List.foldl]
      rw [digitVal_digitChar (n % 10) (Nat.mod_lt n (by omega))]
      omega

theorem natChars_injective : Function.Injective natChars := by
  intro a b h
  have ha := digitsVal_natCharsAux (a + 1) a (Nat.lt_succ_self a)
  have hb := digitsVal_natCharsAux (b + 1) b (Nat.lt_succ_self b)
  rw [natChars, natChars] at h
  rw [← ha, ← hb, h]

theorem candPath_injective (dir base : String) :
    Function.Injective (candPath dir base) := by
  intro j k h
  apply natChars_injective
  have hd := congrArg String.data h
  simp only [candPath, joinPath, natStr, data_append, List.append_assoc] at hd
  have h2 := (List.append_right_inj _).mp ((List.append_right_inj _).mp
    ((List.append_right_inj _).mp ((List.append_right_inj _).mp hd)))
  exact (List.append_left_inj _).mp h2

theorem exists_candPath_fresh (names : List String) (dir base : String) :
    ∃ j, j < names.length + 1 ∧ memStr (candPath dir base (1 + j)) names = false := by
  by_contra hall
  push_neg at hall
  have hmem : ∀ j, j < names.length + 1 → candPath dir base (1 + j) ∈ names := by
    intro j hj
    have := hall j hj
    rcases hb : memStr (candPath dir base (1 + j)) names with _ | _
    · exact absurd hb this
    · exact memStr_iff.mp hb
  have hinj : Function.Injective (fun j => candPath dir base (1 + j)) := by
    intro a b hab
    have := candPath_injective dir base hab
    omega
  have hnd : ((List.range (names.length + 1)).map
      (fun j => candPath dir base (1 + j))).Nodup :=
    (List.nodup_range (names.length + 1)).map hinj
  have hsub : ((List.range (names.length + 1)).map
      (fun j => candPath dir base (1 + j))) ⊆ names := by
    intro x hx
    rw [List.mem_map] at hx
    obtain ⟨j, hj, rfl⟩ := hx
    exact hmem j (List.mem_range.mp hj)
  have hlen := (List.subperm_of_subset hnd hsub).length_le
  simp only [List.length_map, List.length_range] at hlen
  omega

theorem resolveLoop_fresh (names : List String) (dir base : String) :
    ∀ (fuel counter : Nat),
      (∃ j, j < fuel ∧ memStr (candPath dir base (counter + j)) names = false) →
      memStr (resolveLoop names dir base counter fuel) names = false := by
  intro fuel
  induction fuel with
  | zero => rintro counter ⟨j, hj, _⟩; omega
  | succ fuel ih =>
    rintro counter ⟨j, hj, hfree⟩
    by_cases hc : memStr (candPath dir base counter) names
    · rw [resolveLoop, if_pos hc]
      apply ih
      cases j with
      | zero =>
        rw [Nat.add_zero] at hfree
        rw [hfree] at hc
        cases hc
      | succ j' =>
        exact ⟨j', by omega, by rwa [show counter + (j' + 1) = counter + 1 + j' by omega] at hfree⟩
    · rw [resolveLoop, if_neg hc]
      rcases hb : memStr (candPath dir base counter) names with _ | _
      · rfl
      · exact absurd hb hc

theorem resolvePath_fresh (names : List String) (dir base : String) :
    memStr (resolvePath names dir base) names = false := by
  by_cases h0 : memStr (joinPath dir (base ++ ".txt")) names
  · rw [resolvePath]
    simp only [if_pos h0]
    apply resolveLoop_fresh
    obtain ⟨j, hj, hfree⟩ := exists_candPath_fresh names dir base
    exact ⟨j, hj, by rwa [show (1 : Nat) + j = 1 + j from rfl] at hfree⟩
  · rw [resolvePath]
    simp only [if_neg h0]
    rcases hb : memStr (joinPath dir (base ++ ".txt")) names with _ | _
    · rfl
    · exact absurd hb h0

/-- Claim C3: the collision loop never picks a path that already exists
(an existing file is never overwritten), and generating twice with the
same filename-field value produces `name.txt` then `name_1.txt`. -/
theorem C3_collision_suffix :
    (∀ (names : List String) (dir base : String),
        memStr (resolvePath names dir base) names = false)
    ∧ fileNames (generateIndividualFiles
        { template_content := "T", csv_data := [[("n", "name")]], placeholders := [],
          output_dir := "output", current_delimiters := ("\x7b\x7b", "\x7d\x7d"), errors := [] }
        (some "n")
        (generateIndividualFiles
          { template_content := "T", csv_data := [[("n", "name")]], placeholders := [],
            output_dir := "output", current_delimiters := ("\x7b\x7b", "\x7d\x7d"), errors := [] }
          (some "n") []).2.1).2.1
      = ["output/name.txt", "output/name_1.txt"] :=
  ⟨fun names dir base => resolvePath_fresh names dir base, by decide⟩

/-! ## Merge: replacement and sentinel values -/

theorem containsSub_replaceAllAux (pat rep : List Char) (hpat : pat ≠ []) :
    ∀ (fuel : Nat) (text : List Char), text.length ≤ fuel →
      containsSub text pat = true →
      containsSub (replaceAllAux pat rep fuel text) rep = true := by
  intro fuel
  induction fuel with
  | zero =>
    intro text hlen hc
    have htext : text = [] := List.length_eq_zero.mp (Nat.le_zero.mp hlen)
    subst htext
    cases pat with
    | nil => exact absurd rfl hpat
    | cons a as => simp [containsSub, isPre] at hc
  | succ fuel ih =>
    intro text hlen hc
    cases text with
    | nil =>
      cases pat with
      | nil => exact absurd rfl hpat
      | cons a as => simp [containsSub, isPre] at hc
    | cons c cs =>
      by_cases hp : isPre pat (c :: cs)
      · rw [replaceAllAux, if_pos hp]
        exact containsSub_append_self rep _
      · rw [replaceAllAux, if_neg hp]
        apply containsSub_cons_of
        apply ih cs (by simp only [List.length_cons] at hlen; omega)
        rw [containsSub, if_neg hp] at hc
        exact hc

theorem containsSub_replaceAll (text pat rep : List Char) (hpat : pat ≠ [])
    (hc : containsSub text pat = true) :
    containsSub (replaceAll text pat rep) rep = true := by
  rw [replaceAll, if_neg hpat]
  exact containsSub_replaceAllAux pat rep hpat text.length text le_rfl hc

theorem pattern_ne_nil {s x e : String} (hs : s ≠ "") :
    s.data ++ x.data ++ e.data ≠ [] := by
  intro h
  rcases List.append_eq_nil.mp h with ⟨h1, _⟩
  rcases List.append_eq_nil.mp h1 with ⟨h2, _⟩
  exact hs ((data_eq_nil_iff s).mp h2)

/-- Claim C5: merging replaces occurrences of `start+name+end` with the
row's value when the key is present and with the literal
`name_NOT_FOUND` when it is absent: if the pattern occurs in the
template, the sentinel (resp. the value) occurs in the merged output;
and on a concrete template every occurrence is replaced, in
Placeholder-List order. -/
theorem C5_merge_replacement :
    (∀ (t s e x : String) (row : Row), lookupRow row x = none → s ≠ "" →
      containsSub t.data (s.data ++ x.data ++ e.data) = true →
      containsSub (mergeTemplate
          { template_content := t, csv_data := [], placeholders := [x],
            output_dir := "output", current_delimiters := (s, e), errors := [] } row).data
        (x.data ++ ("_NOT_FOUND" : String).data) = true)
    ∧ (∀ (t s e x v : String) (row : Row), lookupRow row x = some v → s ≠ "" →
      containsSub t.data (s.data ++ x.data ++ e.data) = true →
      containsSub (mergeTemplate
          { template_content := t, csv_data := [], placeholders := [x],
            output_dir := "output", current_delimiters := (s, e), errors := [] } row).data
        v.data = true)
    ∧ mergeTemplate
        { template_content := "{{a}}+{{a}} {{b}}", csv_data := [], placeholders := ["a", "b"],
          output_dir := "output", current_delimiters := ("\x7b\x7b", "\x7d\x7d"), errors := [] }
        [("a", "1")] = "1+1 b_NOT_FOUND" := by
  refine ⟨?_, ?_, by decide⟩
  · intro t s e x row hlk hs hc
    show containsSub (replaceAll t.data (s.data ++ x.data ++ e.data)
      ((lookupRow row x).getD (x ++ "_NOT_FOUND")).data) (x.data ++ ("_NOT_FOUND" : String).data)
      = true
    rw [hlk, Option.getD_none, data_append]
    exact containsSub_replaceAll t.data _ _ (pattern_ne_nil hs) hc
  · intro t s e x v row hlk hs hc
    show containsSub (replaceAll t.data (s.data ++ x.data ++ e.data)
      ((lookupRow row x).getD (x ++ "_NOT_FOUND")).data) v.data = true
    rw [hlk, Option.getD_some]
    exact containsSub_replaceAll t.data _ _ (pattern_ne_nil hs) hc

/-- Witness instantiating the C5 theorem: a row lacking key `x` whose
template contains `{{x}}` yields the text `x_NOT_FOUND`. -/
theorem C5_witness :
    lookupRow [] "x" = none ∧ ("\x7b\x7b" : String) ≠ ""
    ∧ containsSub ("A {{x}} B" : String).data
        (("\x7b\x7b" : String).data ++ ("x" : String).data ++ ("\x7d\x7d" : String).data) = true
    ∧ containsSub (mergeTemplate
        { template_content := "A {{x}} B", csv_data := [], placeholders := ["x"],
          output_dir := "output", current_delimiters := ("\x7b\x7b", "\x7d\x7d"), errors := [] } []).data
        (("x" : String).data ++ ("_NOT_FOUND" : String).data) = true :=
  ⟨by decide, by decide, by decide,
    C5_merge_replacement.1 "A {{x}} B" "\x7b\x7b" "\x7d\x7d" "x" [] (by decide) (by decide) (by decide)⟩

/-! ## Loading CSV data and header validation -/

/-- Claim C1 counterexample: after a successful load of one row, a
second call that fails with "CSV file contains no data" returns failure
but replaces the previously loaded `csv_data` by the empty list, so
state other than the Error Log is changed by a failed call. -/
theorem C1_counterexample :
    ((loadCsvData (loadCsvData initGenerator "d1.csv" (ReadResult.ok [[("a", "1")]])).1
        "d2.csv" (ReadResult.ok [])).2 = false)
    ∧ (loadCsvData (loadCsvData initGenerator "d1.csv" (ReadResult.ok [[("a", "1")]])).1
        "d2.csv" (ReadResult.ok [])).1.csv_data
      ≠ (loadCsvData initGenerator "d1.csv" (ReadResult.ok [[("a", "1")]])).1.csv_data := by
  decide

/-- Claim C1 (amended): a failed `load_csv_data` leaves all state other
than the Error Log unchanged only for file-not-found and read/parse
failures; on the empty-data failure `csv_data` has already been
replaced by the empty list, and on a header-validation failure by the
newly parsed rows.  One error entry is appended and failure returned in
every case. -/
theorem C1_amended :
    (∀ (g : MailMergeGenerator) (path : String),
      loadCsvData g path ReadResult.notFound
        = ({ g with errors := g.errors ++ ["CSV file not found: " ++ path] }, false))
    ∧ (∀ (g : MailMergeGenerator) (path m : String),
      loadCsvData g path (ReadResult.err m)
        = ({ g with errors := g.errors ++ ["Error reading CSV: " ++ m] }, false))
    ∧ (∀ (g : MailMergeGenerator) (path : String),
      loadCsvData g path (ReadResult.ok [])
        = ({ g with
              csv_data := []
              errors := g.errors ++ ["CSV file contains no data"] }, false))
    ∧ (∀ (g : MailMergeGenerator) (path : String) (r : Row) (rs : List Row),
      g.placeholders.filter (fun ph => !hasKey r ph) ≠ [] →
      loadCsvData g path (ReadResult.ok (r :: rs))
        = ({ g with
              csv_data := r :: rs
              errors := g.errors ++ ["CSV missing required columns: "
                ++ joinComma (g.placeholders.filter (fun ph => !hasKey r ph))] }, false)) := by
  refine ⟨fun g path => rfl, fun g path m => rfl, fun g path => rfl, ?_⟩
  intro g path r rs h
  rw [loadCsvData]
  simp only [if_neg (by simp : ¬ ({ g with csv_data := r :: rs }
    : MailMergeGenerator).csv_data = [])]
  rw [validateCsvHeaders]
  simp only [List.headD_cons]
  rw [if_neg h]

/-- Witness instantiating the header-validation failure case of the
amended C1 theorem at a concrete state. -/
theorem C1_witness :
    (({ initGenerator with placeholders := ["a", "b"] }
        : MailMergeGenerator).placeholders.filter
        (fun ph => !hasKey [("a", "1")] ph) ≠ [])
    ∧ loadCsvData { initGenerator with placeholders := ["a", "b"] } "d.csv"
        (ReadResult.ok [[("a", "1")]])
      = ({ { initGenerator with placeholders := ["a", "b"] } with
            csv_data := [[("a", "1")]]
            errors := ({ initGenerator with placeholders := ["a", "b"] }
              : MailMergeGenerator).errors
              ++ ["CSV missing required columns: "
                ++ joinComma (({ initGenerator with placeholders := ["a", "b"] }
                  : MailMergeGenerator).placeholders.filter
                  (fun ph => !hasKey [("a", "1")] ph))] }, false) :=
  ⟨by decide, C1_amended.2.2.2 { initGenerator with placeholders := ["a", "b"] }
    "d.csv" [("a", "1")] [] (by decide)⟩

/-- Claim C4: header validation compares the Placeholder List against
the keys of the first row only; it fails exactly when some placeholder
is missing there, in which case exactly one Error Log entry is appended
listing all missing names comma-joined, and it succeeds without
touching the state otherwise.  On `[{"a":"1"}]` against `["a","b"]` it
reports exactly `b`. -/
theorem C4_header_validation :
    (∀ (g : MailMergeGenerator) (r : Row) (rest : List Row), g.csv_data = r :: rest →
      (((validateCsvHeaders g).2 = false) ↔ ∃ ph ∈ g.placeholders, hasKey r ph = false)
      ∧ (g.placeholders.filter (fun ph => !hasKey r ph) ≠ [] →
          validateCsvHeaders g
            = ({ g with errors := g.errors ++ ["CSV missing required columns: "
                ++ joinComma (g.placeholders.filter (fun ph => !hasKey r ph))] }, false))
      ∧ (g.placeholders.filter (fun ph => !hasKey r ph) = [] →
          validateCsvHeaders g = (g, true)))
    ∧ validateCsvHeaders
        { template_content := "", csv_data := [[("a", "1")]], placeholders := ["a", "b"],
          output_dir := "output", current_delimiters := ("\x7b\x7b", "\x7d\x7d"), errors := [] }
      = ({ template_content := ""
           csv_data := [[("a", "1")]]
           placeholders := ["a", "b"]
           output_dir := "output"
           current_delimiters := ("\x7b\x7b", "\x7d\x7d")
           errors := ["CSV missing required columns: b"] }, false) := by
  refine ⟨?_, by decide⟩
  intro g r rest hdata
  have hhead : g.csv_data.headD [] = r := by rw [hdata]; rfl
  refine ⟨?_, ?_, ?_⟩
  · rw [validateCsvHeaders]
    simp only [hhead]
    by_cases hmiss : g.placeholders.filter (fun ph => !hasKey r ph) = []
    · rw [if_pos hmiss]
      simp only [Bool.true_eq_false, false_iff]
      rintro ⟨ph, hph, hkey⟩
      have := List.filter_eq_nil_iff.mp hmiss ph hph
      simp [hkey] at this
    · rw [if_neg hmiss]
      simp only [true_iff]
      obtain ⟨ph, hph⟩ := List.exists_mem_of_ne_nil _ hmiss
      have hmem := List.mem_filter.mp hph
      refine ⟨ph, hmem.1, ?_⟩
      rcases hb : hasKey r ph with _ | _
      · rfl
      · rw [hb] at hmem; simp at hmem
  · intro h
    rw [validateCsvHeaders]
    simp only [hhead]
    rw [if_neg h]
  · intro h
    rw [validateCsvHeaders]
    simp only [hhead]
    rw [if_pos h]

/-- Witness instantiating the C4 theorem at the concrete state from the
spec example. -/
theorem C4_witness :
    (({ initGenerator with placeholders := ["a", "b"], csv_data := [[("a", "1")]] }
        : MailMergeGenerator).csv_data = [("a", "1")] :: [])
    ∧ (((validateCsvHeaders
          { initGenerator with placeholders := ["a", "b"], csv_data := [[("a", "1")]] }).2
          = false)
        ↔ ∃ ph ∈ ({ initGenerator with placeholders := ["a", "b"], csv_data := [[("a", "1")]] }
            : MailMergeGenerator).placeholders,
          hasKey [("a", "1")] ph = false) :=
  ⟨by decide, (C4_header_validation.1
    { initGenerator with placeholders := ["a", "b"], csv_data := [[("a", "1")]] }
    [("a", "1")] [] (by decide)).1⟩

/-! ## Combined mode -/

theorem combineRows_cons (mergeF : Nat → Row → Except String String) (row : Row)
    (rest : List Row) (i : Nat) :
    combineRows mergeF (row :: rest) i =
      match mergeF i row with
      | .ok c =>
        (c :: sepLine :: (combineRows mergeF rest (i + 1)).1,
         (combineRows mergeF rest (i + 1)).2.1 + 1,
         (combineRows mergeF rest (i + 1)).2.2)
      | .error m =>
        ((combineRows mergeF rest (i + 1)).1,
         (combineRows mergeF rest (i + 1)).2.1,
         ("Error processing row " ++ natStr (i + 1) ++ ": " ++ m)
           :: (combineRows mergeF rest (i + 1)).2.2) := rfl

theorem combineRows_all_fail (mergeF : Nat → Row → Except String String)
    (hfail : ∀ j r, ∃ m, mergeF j r = Except.error m) :
    ∀ (rows : List Row) (i : Nat), (combineRows mergeF rows i).2.1 = 0 := by
  intro rows
  induction rows with
  | nil => intro i; rfl
  | cons row rest ih =>
    intro i
    obtain ⟨m, hm⟩ := hfail i row
    rw [combineRows_cons, hm]
    exact ih (i + 1)

theorem combineRows_succ_pos (mergeF : Nat → Row → Except String String) :
    ∀ (rows : List Row) (i : Nat), 0 < (combineRows mergeF rows i).2.1 →
      ∃ r ∈ rows, ∃ j c, mergeF j r = Except.ok c := by
  intro rows
  induction rows with
  | nil => intro i h; simp [combineRows] at h
  | cons row rest ih =>
    intro i h
    cases hm : mergeF i row with
    | ok c => exact ⟨row, List.mem_cons_self row rest, i, c, hm⟩
    | error m =>
      rw [combineRows_cons, hm] at h
      obtain ⟨r, hr, hex⟩ := ih (i + 1) h
      exact ⟨r, List.mem_cons_of_mem row hr, hex⟩

/-- Claim C6: in combined mode, zero successful rows means no file is
written and overall failure; a combined file appears only when at least
one row merged successfully; and a failing final write is logged and
yields overall failure even though rows merged. -/
theorem C6_combined_mode :
    ∀ (g : MailMergeGenerator) (mergeF : Nat → Row → Except String String)
      (timestamp : String) (fs : List (String × String)),
      ((∀ j r, ∃ m, mergeF j r = Except.error m) → ∀ writeRes,
        (generateCombinedOutput g mergeF writeRes timestamp fs).2.1 = fs
        ∧ (generateCombinedOutput g mergeF writeRes timestamp fs).2.2 = false)
      ∧ (∀ writeRes, (generateCombinedOutput g mergeF writeRes timestamp fs).2.1 ≠ fs →
          ∃ r ∈ g.csv_data, ∃ j c, mergeF j r = Except.ok c)
      ∧ (∀ m, 0 < (combineRows mergeF g.csv_data 0).2.1 →
          (generateCombinedOutput g mergeF (some m) timestamp fs).2.2 = false
          ∧ (generateCombinedOutput g mergeF (some m) timestamp fs).2.1 = fs
          ∧ (generateCombinedOutput g mergeF (some m) timestamp fs).1.errors
              = g.errors ++ (combineRows mergeF g.csv_data 0).2.2
                ++ ["Error writing combined file: " ++ m]) := by
  intro g mergeF timestamp fs
  refine ⟨?_, ?_, ?_⟩
  · intro hfail writeRes
    have hz := combineRows_all_fail mergeF hfail g.csv_data 0
    constructor <;> simp [generateCombinedOutput.eq_def, hz]
  · intro writeRes hne
    by_cases hpos : 0 < (combineRows mergeF g.csv_data 0).2.1
    · exact combineRows_succ_pos mergeF g.csv_data 0 hpos
    · exfalso
      apply hne
      simp [generateCombinedOutput.eq_def, if_neg hpos]
  · intro m hpos
    simp [generateCombinedOutput.eq_def, if_pos hpos, List.append_assoc]

/-- Witness instantiating the C6 theorem where every row raises during
merge: the run creates no file and fails. -/
theorem C6_witness :
    (∀ j r, ∃ m, (fun (_ : Nat) (_ : Row) => (Except.error "boom" : Except String String)) j r
      = Except.error m)
    ∧ ((generateCombinedOutput
          { initGenerator with template_content := "T", csv_data := [[("a", "1")]] }
        (fun _ _ => Except.error "boom") none "20240101_120000" []).2.1 = []
      ∧ (generateCombinedOutput
          { initGenerator with template_content := "T", csv_data := [[("a", "1")]] }
        (fun _ _ => Except.error "boom") none "20240101_120000" []).2.2 = false) :=
  ⟨fun _ _ => ⟨"boom", rfl⟩,
    (C6_combined_mode { initGenerator with template_content := "T", csv_data := [[("a", "1")]] }
      (fun _ _ => Except.error "boom") "20240101_120000" []).1
      (fun _ _ => ⟨"boom", rfl⟩) none⟩

/-! ## Delimiters -/

theorem setDelimiters_delims (g : MailMergeGenerator) (s e : String) :
    (setDelimiters g s e).current_delimiters = (s, e) := by
  by_cases h : g.template_content ≠ ""
  · simp [setDelimiters, extractPlaceholders, h]
  · simp [setDelimiters, extractPlaceholders, h]

/-- Claim C8 counterexample: `set_delimiters` performs no validation,
so calling it with an empty start marker installs the empty string as
the start delimiter, reaching a state whose delimiter is empty. -/
theorem C8_counterexample :
    (setDelimiters initGenerator "" "x").current_delimiters.1 = "" := by decide

/-- Claim C8 (amended): `set_delimiters` installs exactly the pair it
is given, without validation, so an empty marker can be installed by a
direct call; re-setting delimiters re-extracts placeholders when a
template is loaded and leaves them alone otherwise; only the
interactive menu guarantees nonempty markers by substituting the
defaults for blank input. -/
theorem C8_amended :
    (∀ (g : MailMergeGenerator) (s e : String),
      (setDelimiters g s e).current_delimiters = (s, e))
    ∧ (∀ (g : MailMergeGenerator) (s e : String), g.template_content ≠ "" →
      (setDelimiters g s e).placeholders = placeholderList s e g.template_content)
    ∧ (∀ (g : MailMergeGenerator) (s e : String), g.template_content = "" →
      (setDelimiters g s e).placeholders = g.placeholders)
    ∧ (∀ (g : MailMergeGenerator) (a b : String),
      (menuSetDelimiters g a b).current_delimiters.1 ≠ ""
      ∧ (menuSetDelimiters g a b).current_delimiters.2 ≠ "") := by
  refine ⟨setDelimiters_delims, ?_, ?_, ?_⟩
  · intro g s e h
    simp [setDelimiters, extractPlaceholders, h]
  · intro g s e h
    simp [setDelimiters, extractPlaceholders, h]
  · intro g a b
    rw [menuSetDelimiters]
    constructor
    · rw [setDelimiters_delims]
      by_cases h : String.mk (pyStrip a.data) = "" <;> simp [h]
    · rw [setDelimiters_delims]
      by_cases h : String.mk (pyStrip b.data) = "" <;> simp [h]

/-- Witness instantiating the re-extraction case of the amended C8
theorem at a concrete state. -/
theorem C8_witness :
    (({ initGenerator with template_content := "<z>" }
        : MailMergeGenerator).template_content ≠ "")
    ∧ (setDelimiters { initGenerator with template_content := "<z>" } "<" ">").placeholders
      = placeholderList "<" ">"
          ({ initGenerator with template_content := "<z>" }
            : MailMergeGenerator).template_content :=
  ⟨by decide, C8_amended.2.1 { initGenerator with template_content := "<z>" } "<" ">"
    (by decide)⟩

/-! ## Base filenames in individual mode -/

theorem hasKey_of_lookup :
    ∀ (row : Row) (k v : String), lookupRow row k = some v → hasKey row k = true := by
  intro row
  induction row with
  | nil => intro k v h; cases h
  | cons p rest ih =>
    intro k v h
    obtain ⟨a, b⟩ := p
    by_cases hak : a = k
    · rw [hasKey, if_pos hak]
    · rw [lookupRow, if_neg hak] at h
      rw [hasKey, if_neg hak]
      exact ih k v h

/-- Claim C9 counterexample: a filename-field value containing a tab
keeps the tab in the base filename — the code replaces only spaces, not
all whitespace, so the result differs from the all-whitespace-replaced
name `a_b` the claim demands. -/
theorem C9_counterexample :
    baseFilename (some "f") [("f", "a\tb")] 0 = "a\tb"
    ∧ ("a\tb" : String) ≠ "a_b"
    ∧ '\t' ∈ ("a\tb" : String).data := by decide

/-- Claim C9 (amended): with a given, truthy filename field present in
the row, the base filename is the field's value stripped of leading and
trailing whitespace with every interior space character (only U+0020,
not tabs or other whitespace) replaced by an underscore — the result
contains no space; otherwise the base filename is the positional
fallback with the 1-based row index. -/
theorem C9_amended :
    (∀ (f : String) (row : Row) (i : Nat) (v : String), f ≠ "" → lookupRow row f = some v →
      baseFilename (some f) row i = String.mk (pyReplaceSpace (pyStrip v.data)))
    ∧ (∀ l : List Char, ¬ ' ' ∈ pyReplaceSpace l)
    ∧ (∀ (row : Row) (i : Nat), baseFilename none row i = "document_" ++ natStr (i + 1))
    ∧ (∀ (f : String) (row : Row) (i : Nat), hasKey row f = false →
      baseFilename (some f) row i = "document_" ++ natStr (i + 1)) := by
  refine ⟨?_, ?_, fun row i => rfl, ?_⟩
  · intro f row i v hf hlk
    rw [baseFilename, if_pos ⟨hf, hasKey_of_lookup row f v hlk⟩, hlk]
    rfl
  · intro l hmem
    rw [pyReplaceSpace, List.mem_map] at hmem
    obtain ⟨a, _, hfa⟩ := hmem
    by_cases h : a = ' ' <;> simp [h] at hfa
  · intro f row i hkey
    rw [baseFilename, if_neg (fun hand => by rw [hkey] at hand; exact absurd hand.2 (by simp))]

/-- Witness instantiating the amended C9 theorem on a value with
leading whitespace and an interior space. -/
theorem C9_witness :
    ("n" : String) ≠ "" ∧ lookupRow [("n", " a b")] "n" = some " a b"
    ∧ baseFilename (some "n") [("n", " a b")] 0
      = String.mk (pyReplaceSpace (pyStrip (" a b" : String).data))
    ∧ baseFilename (some "n") [("n", " a b")] 0 = "a_b" :=
  ⟨by decide, by decide,
    C9_amended.1 "n" [("n", " a b")] 0 " a b" (by decide) (by decide), by decide⟩

/-! ## Readiness and the empty template -/

theorem placeholderList_empty_template (s e : String) (h : ¬ (s = "" ∧ e = "")) :
    placeholderList s e "" = [] := by
  have hscan : scanAll s.data e.data ("" : String).data = [] := by
    show scanAllAux s.data e.data 1 []  = []
    cases hs : s.data with
    | cons a as =>
      exact scanAllAux_nil (a :: as) e.data (by simp) 1
    | nil =>
      have he : e.data ≠ [] := by
        intro he'
        exact h ⟨(data_eq_nil_iff s).mp hs, (data_eq_nil_iff e).mp he'⟩
      have htm : tryMatch [] e.data [] = none := by
        rw [tryMatch, if_pos (by rfl : isPre [] [] = true)]
        show findInner e.data [] = none
        cases hed : e.data with
        | nil => exact absurd hed he
        | cons b bs => rw [findInner, if_neg (by simp [isPre])]
      exact scanAllAux_none_nil [] e.data 0 htm
  rw [placeholderList, rawPlaceholders, hscan]
  rfl

/-- Claim C10: loading an existing, readable template file whose
content is empty succeeds and leaves an empty placeholder list, yet a
subsequent `generate_output` fails with the "No template loaded" error
and touches no files: readiness is decided by the template string being
nonempty, not by whether a load succeeded. -/
theorem C10_empty_template :
    ∀ (g : MailMergeGenerator) (path : String),
      ¬ (g.current_delimiters.1 = "" ∧ g.current_delimiters.2 = "") →
      (loadTemplate g path (ReadResult.ok "")).2 = true
      ∧ (loadTemplate g path (ReadResult.ok "")).1.template_content = ""
      ∧ (loadTemplate g path (ReadResult.ok "")).1.placeholders = []
      ∧ (∀ (fmt : String) (ff : Option String) (mergeF : Nat → Row → Except String String)
          (writeRes : Option String) (ts : String) (fs : List (String × String)),
          generateOutput (loadTemplate g path (ReadResult.ok "")).1 fmt ff mergeF writeRes ts fs
            = ({ (loadTemplate g path (ReadResult.ok "")).1 with
                  errors := (loadTemplate g path (ReadResult.ok "")).1.errors
                    ++ ["No template loaded"] }, fs, false)) := by
  intro g path hne
  refine ⟨rfl, rfl, ?_, ?_⟩
  · show (extractPlaceholders { g with template_content := "" }).placeholders = []
    rw [extractPlaceholders]
    exact placeholderList_empty_template _ _ hne
  · intro fmt ff mergeF writeRes ts fs
    rw [generateOutput, readyToGenerate]
    simp only [if_pos (rfl : (extractPlaceholders
      { g with template_content := "" }).template_content = "")]
    rfl

/-- Witness instantiating the C10 theorem at the initial state. -/
theorem C10_witness :
    (¬ (initGenerator.current_delimiters.1 = "" ∧ initGenerator.current_delimiters.2 = ""))
    ∧ (loadTemplate initGenerator "t.txt" (ReadResult.ok "")).2 = true
    ∧ (loadTemplate initGenerator "t.txt" (ReadResult.ok "")).1.placeholders = [] :=
  ⟨by decide,
    (C10_empty_template initGenerator "t.txt" (by decide)).1,
    (C10_empty_template initGenerator "t.txt" (by decide)).2.2.1⟩
